import Mathlib

/-!
Verification of the event seat-reservation engine (EMS).

This file gives a shallow embedding of the two variants of the engine found
in the repository and proves properties about them:

* `src/Proj2/server/operations.c` — the "coarse" variant: `ems_reserve`
  validates all bounds, pre-scans the grid for conflicts, and only then
  increments the per-event reservation counter and marks the seats
  (functions prefixed `p2_` below).
* the Ex2 variant (referred to as Proj1) — the "fine-grained" variant:
  `ems_reserve` increments the counter first, claims seats one at a time,
  and on the first out-of-bounds or occupied seat rolls back the seats
  already claimed in this request and decrements the counter
  (functions prefixed `p1_` below).

Machine integers: the per-event reservation counter and the grid cells are
C `unsigned int`; increments and decrements are modelled modulo `2 ^ 32`
(`UINT32`).  Rows, columns and seat coordinates are `size_t`; in the C code
`seat_index` is only ever applied to coordinates that already passed the
`1 <= row <= rows` / `1 <= col <= cols` bounds check, so Nat subtraction in
`seatIndex` agrees with the C computation on every reachable call.

The event-list helpers (`create_list`, `append_to_list`, `get_event`,
`free_list` from `eventlist.c`) are not part of the sources; where needed
they are modelled from the spec, as documented on the definitions below.
-/

deriving instance DecidableEq for Except

namespace EMS

/-- Modulus of C `unsigned int` arithmetic (the type of the per-event
reservation counter and of the grid cells). -/
def UINT32 : Nat := 2 ^ 32

/-- One event: `struct Event` — id, grid shape, reservation counter and the
row-major seat grid (`data` / `Data[i].place`), cell value 0 meaning free. -/
structure Event where
  id : Nat
  rows : Nat
  cols : Nat
  reservations : Nat
  data : List Nat
deriving Repr, DecidableEq

/-- Row-major index of a seat: `seat_index` in both variants,
`(row - 1) * event->cols + col - 1`. -/
def seatIndex (ev : Event) (s : Nat × Nat) : Nat :=
  (s.1 - 1) * ev.cols + (s.2 - 1)

/-- Out-of-bounds test on one requested seat, as written in both variants:
`xs[i] <= 0 || xs[i] > event->rows || ys[i] <= 0 || ys[i] > event->cols`
(`<= 0` is `== 0` on `size_t`). -/
def oob (ev : Event) (s : Nat × Nat) : Bool :=
  (s.1 == 0) || decide (ev.rows < s.1) || (s.2 == 0) || decide (ev.cols < s.2)

/-- The seat-marking loop shared by both variants: write value `v` into the
grid at the index of each listed seat, in list order.  Instantiated with the
new reservation id it is Proj2's marking loop and Proj1's claim writes;
instantiated with `0` it is Proj1's rollback loop. -/
def writeSeats (ev : Event) (v : Nat) (data : List Nat) (seats : List (Nat × Nat)) : List Nat :=
  seats.foldl (fun d s => d.set (seatIndex ev s) v) data

/-- Error outcomes of `ems_reserve`; in the C code these are the distinct
early-`return 1` sites (each with its own stderr message). -/
inductive RErr where
  | notInit
  | eventNotFound
  | seatOutOfBounds
  | seatAlreadyReserved
deriving Repr, DecidableEq

/-- Proj2 `ems_reserve` conflict pre-scan: for every grid index `i`, if some
requested seat maps to `i` and `event->data[i] != 0`, the request fails. -/
def p2_conflict (ev : Event) (seats : List (Nat × Nat)) : Bool :=
  (List.range (ev.rows * ev.cols)).any fun i =>
    seats.any fun s => (seatIndex ev s == i) && (ev.data.getD i 0 != 0)

/-- Proj2 `ems_reserve`, acting on the event already resolved from the
registry: bounds-check every seat, pre-scan for conflicts, then allocate
`reservation_id = ++event->reservations` and mark every requested seat.
The error paths in the C code return before any store to the event, which
the `Except` result reflects. -/
def p2_reserve (ev : Event) (seats : List (Nat × Nat)) : Except RErr Event :=
  if seats.any (oob ev) then .error .seatOutOfBounds
  else if p2_conflict ev seats then .error .seatAlreadyReserved
  else
    let rid := (ev.reservations + 1) % UINT32
    .ok { ev with reservations := rid, data := writeSeats ev rid ev.data seats }

/-- Proj2 reserve as a state transformer on the event: on failure the C code
has not touched the event, so the pre-state is returned. -/
def p2_run (ev : Event) (seats : List (Nat × Nat)) : Bool × Event :=
  match p2_reserve ev seats with
  | .ok ev2 => (true, ev2)
  | .error _ => (false, ev)

/-- Proj1 `ems_reserve` main loop: claim seats one at a time, stopping at the
first out-of-bounds or already-occupied seat.  Returns the grid after the
loop, the list of seats claimed by this request (the seats of indices
`0 .. i-1` in the C code), and whether the loop ran to completion. -/
def p1_loop (ev : Event) (rid : Nat) : List Nat → List (Nat × Nat) → List Nat × List (Nat × Nat) × Bool
  | data, [] => (data, [], true)
  | data, s :: rest =>
    if oob ev s then (data, [], false)
    else if data.getD (seatIndex ev s) 0 != 0 then (data, [], false)
    else
      let r := p1_loop ev rid (data.set (seatIndex ev s) rid) rest
      (r.1, s :: r.2.1, r.2.2)

/-- Proj1 `ems_reserve`, acting on the event resolved from the registry:
`reservation_id = ++event->reservations` first, then the claim loop; if the
loop stopped early, `event->reservations--` and zero back the seats claimed
by this request. -/
def p1_reserve (ev : Event) (seats : List (Nat × Nat)) : Bool × Event :=
  let rid := (ev.reservations + 1) % UINT32
  let r := p1_loop ev rid ev.data seats
  if r.2.2 then
    (true, { ev with reservations := rid, data := r.1 })
  else
    (false,
      { ev with
          reservations := (rid + (UINT32 - 1)) % UINT32,
          data := writeSeats ev 0 r.1 r.2.1 })

/-- Well-formedness of an event: the grid has exactly `rows * cols` cells,
as allocated by `ems_create` in both variants. -/
def wfData (ev : Event) : Prop := ev.data.length = ev.rows * ev.cols

instance (ev : Event) : Decidable (wfData ev) := by unfold wfData; infer_instance

/-- Run a sequence of reserve requests against one event with the given
variant, collecting the reservation id handed out by each successful call
(the value of the counter right after that call). -/
def runSeq (step : Event → List (Nat × Nat) → Bool × Event) : Event → List (List (Nat × Nat)) → Event × List Nat
  | ev, [] => (ev, [])
  | ev, req :: rest =>
    let r := step ev req
    let r2 := runSeq step r.2 rest
    (r2.1, if r.1 then r.2.reservations :: r2.2 else r2.2)

/-- Modelled from the spec: the missing `eventlist.c` keeps the events as an
ordered sequence in creation order (`append_to_list` appends at the tail,
`get_event` scans from head to tail returning the first event with the given
id, `create_list` yields an empty list).  Proj2's `struct EventList` also
carries `num_events`, incremented by `ems_create`. -/
structure P2Reg where
  events : List Event
  numEvents : Nat
deriving Repr, DecidableEq

/-- State of the static `event_list` pointer: NULL before initialization,
a valid registry while initialized, or a freed-but-non-NULL (dangling)
pointer — the state Proj2's `ems_terminate` leaves behind, since it calls
`free_list` without resetting `event_list` to NULL. -/
inductive Ptr (α : Type) where
  | null
  | valid (reg : α)
  | dangling
deriving Repr, DecidableEq

/-- A freshly created event: `ems_create` fills in the id and shape, sets
`reservations = 0` and allocates an all-zero grid (`calloc` in Proj2, an
explicit zeroing loop in Proj1). -/
def newEvent (i rows cols : Nat) : Event :=
  { id := i, rows := rows, cols := cols, reservations := 0,
    data := List.replicate (rows * cols) 0 }

/-- Modelled from the spec: `get_event` of the missing `eventlist.c` —
lookup by id, first match in creation order, absence is a normal outcome. -/
def findEvent (evs : List Event) (i : Nat) : Option Event :=
  evs.find? fun e => e.id == i

/-- Replace the (first) event holding the given id — the effect of mutating
in place the event returned by `get_event`. -/
def setEvent : List Event → Nat → Event → List Event
  | [], _, _ => []
  | e :: es, i, ev2 => if e.id == i then ev2 :: es else e :: setEvent es i ev2

/-- Proj2 `ems_init`: fails if `event_list` is non-NULL (including the
dangling pointer left by `ems_terminate`), otherwise creates an empty list.
Boolean result `true` is the C return value 0 (success). -/
def p2_init : Ptr P2Reg → Bool × Ptr P2Reg
  | .null => (true, .valid { events := [], numEvents := 0 })
  | st => (false, st)

/-- Proj2 `ems_terminate`: fails when `event_list` is NULL; otherwise frees
the list but does NOT reset `event_list`, leaving a dangling non-NULL
pointer.  (On an already-dangling pointer the C code would lock and free
freed memory — undefined behavior; modelled as a failure without state
change, a case no theorem below relies on.) -/
def p2_terminate : Ptr P2Reg → Bool × Ptr P2Reg
  | .null => (false, .null)
  | .valid _ => (true, .dangling)
  | .dangling => (false, .dangling)

/-- Proj2 `ems_create`: fails on NULL state or duplicate id, otherwise
appends a fresh all-zero event and increments `num_events`.  (Allocation
never fails in the model; on a dangling pointer the C code is undefined,
modelled as failure.) -/
def p2_create (st : Ptr P2Reg) (i rows cols : Nat) : Bool × Ptr P2Reg :=
  match st with
  | .null => (false, st)
  | .dangling => (false, st)
  | .valid reg =>
    match findEvent reg.events i with
    | some _ => (false, st)
    | none =>
      (true, .valid { events := reg.events ++ [newEvent i rows cols],
                      numEvents := reg.numEvents + 1 })

/-- Proj2 `ems_reserve` at the level of the whole engine state: resolve the
event, run the reserve algorithm, store back the mutated event.  The first
component is the error reported (`none` on success). -/
def p2_reserveCall (st : Ptr P2Reg) (i : Nat) (seats : List (Nat × Nat)) : Option RErr × Ptr P2Reg :=
  match st with
  | .null => (some .notInit, st)
  | .dangling => (some .notInit, st)
  | .valid reg =>
    match findEvent reg.events i with
    | none => (some .eventNotFound, st)
    | some ev =>
      match p2_reserve ev seats with
      | .error e => (some e, st)
      | .ok ev2 => (none, .valid { reg with events := setEvent reg.events i ev2 })

/-- The seat payload Proj2's `ems_show` writes to the response pipe: the
grid cells read in row-major order (`i` from 1 to rows, `j` from 1 to cols,
reading `event->data[seat_index(event, i, j)]`). -/
def showCells (ev : Event) : List Nat :=
  ((List.range ev.rows).map fun i =>
    (List.range ev.cols).map fun j => ev.data.getD (seatIndex ev (i + 1, j + 1)) 0).flatten

/-- Proj2 `ems_show` response: `none` when an error status 1 is written
(state NULL or event not found), otherwise the row count, column count and
row-major seat dump that follow the success status. -/
def p2_show (st : Ptr P2Reg) (i : Nat) : Option (Nat × Nat × List Nat) :=
  match st with
  | .null => none
  | .dangling => none
  | .valid reg =>
    match findEvent reg.events i with
    | none => none
    | some ev => some (ev.rows, ev.cols, showCells ev)

/-- Proj2 `ems_list_events` response: `none` when an error status 1 is
written — state NULL, or (notably) an EMPTY registry, since the C code
treats `event_list->head == NULL` as an error; otherwise `num_events`
followed by the event ids in creation order. -/
def p2_list (st : Ptr P2Reg) : Option (Nat × List Nat) :=
  match st with
  | .null => none
  | .dangling => none
  | .valid reg =>
    match reg.events with
    | [] => none
    | _ => some (reg.numEvents, reg.events.map (·.id))

/-- Modelled from the spec: Proj1's registry is the same ordered event
sequence, without a separate count. -/
abbrev P1Reg := List Event

/-- Proj1 `ems_init`: fails if `event_list` is non-NULL. -/
def p1_init : Option P1Reg → Bool × Option P1Reg
  | none => (true, some [])
  | some r => (false, some r)

/-- Proj1 `ems_terminate`: fails on NULL, otherwise frees the list AND
resets `event_list = NULL`. -/
def p1_terminate : Option P1Reg → Bool × Option P1Reg
  | none => (false, none)
  | some _ => (true, none)

/-- Proj1 `ems_create`: fails on NULL state or duplicate id, otherwise
appends a fresh all-zero event at the tail. -/
def p1_create (st : Option P1Reg) (i rows cols : Nat) : Bool × Option P1Reg :=
  match st with
  | none => (false, st)
  | some evs =>
    match findEvent evs i with
    | some _ => (false, st)
    | none => (true, some (evs ++ [newEvent i rows cols]))

/-- Proj1 `ems_list_events` output: `none` when the call fails (state NULL);
an empty registry is a SUCCESS printing no event lines ("No events" goes to
stderr and the function returns 0); otherwise one id per event in creation
order. -/
def p1_list (st : Option P1Reg) : Option (List Nat) :=
  match st with
  | none => none
  | some evs => some (evs.map (·.id))

/-- Fold a list of `(id, rows, cols)` CREATE requests through Proj2's
`ems_create`. -/
def p2_runCreates : Ptr P2Reg → List (Nat × Nat × Nat) → Ptr P2Reg
  | st, [] => st
  | st, r :: rest => p2_runCreates (p2_create st r.1 r.2.1 r.2.2).2 rest

/-- Fold a list of `(id, rows, cols)` CREATE requests through Proj1's
`ems_create`. -/
def p1_runCreates : Option P1Reg → List (Nat × Nat × Nat) → Option P1Reg
  | st, [] => st
  | st, r :: rest => p1_runCreates (p1_create st r.1 r.2.1 r.2.2).2 rest

/-! ### Basic list and grid lemmas -/

theorem getD_set_self {l : List Nat} {i : Nat} (a : Nat) (h : i < l.length) :
    (l.set i a).getD i 0 = a := by
  simp [List.getD_eq_getElem?_getD, List.getElem?_set_self h]

theorem getD_set_ne {l : List Nat} {i j : Nat} (a : Nat) (h : i ≠ j) :
    (l.set i a).getD j 0 = l.getD j 0 := by
  simp [List.getD_eq_getElem?_getD, List.getElem?_set_ne h]

theorem set_zero_of_getD_zero : ∀ (l : List Nat) (i : Nat), l.getD i 0 = 0 → l.set i 0 = l
  | [], _, _ => rfl
  | a :: t, 0, h => by simp_all [List.getD_eq_getElem?_getD]
  | a :: t, i + 1, h => by
    have ih := set_zero_of_getD_zero t i (by simpa [List.getD_eq_getElem?_getD] using h)
    simp [List.set, ih]

theorem oob_false_iff (ev : Event) (s : Nat × Nat) :
    oob ev s = false ↔ 1 ≤ s.1 ∧ s.1 ≤ ev.rows ∧ 1 ≤ s.2 ∧ s.2 ≤ ev.cols := by
  simp only [oob, Bool.or_eq_false_iff, beq_eq_false_iff_ne, decide_eq_false_iff_not]
  omega

theorem seatIndex_lt (ev : Event) {s : Nat × Nat} (h : oob ev s = false) :
    seatIndex ev s < ev.rows * ev.cols := by
  obtain ⟨h1, h2, h3, h4⟩ := (oob_false_iff ev s).1 h
  unfold seatIndex
  calc (s.1 - 1) * ev.cols + (s.2 - 1) < (s.1 - 1) * ev.cols + ev.cols := by omega
    _ = (s.1 - 1 + 1) * ev.cols := (Nat.succ_mul _ _).symm
    _ = s.1 * ev.cols := by rw [Nat.sub_add_cancel h1]
    _ ≤ ev.rows * ev.cols := Nat.mul_le_mul_right _ h2

theorem seatIndex_inj (ev : Event) {s t : Nat × Nat} (hs : oob ev s = false)
    (ht : oob ev t = false) (hne : s ≠ t) : seatIndex ev s ≠ seatIndex ev t := by
  obtain ⟨a1, a2, a3, a4⟩ := (oob_false_iff ev s).1 hs
  obtain ⟨b1, b2, b3, b4⟩ := (oob_false_iff ev t).1 ht
  intro heq
  unfold seatIndex at heq
  have hc : 0 < ev.cols := by omega
  have hs2 : (s.2 - 1) / ev.cols = 0 := Nat.div_eq_of_lt (by omega)
  have ht2 : (t.2 - 1) / ev.cols = 0 := Nat.div_eq_of_lt (by omega)
  have heq2 : s.2 - 1 + (s.1 - 1) * ev.cols = t.2 - 1 + (t.1 - 1) * ev.cols := by omega
  have hrow : s.1 - 1 = t.1 - 1 := by
    have := congrArg (· / ev.cols) heq2
    simpa [Nat.add_mul_div_right _ _ hc, hs2, ht2] using this
  have hmul : (s.1 - 1) * ev.cols = (t.1 - 1) * ev.cols := by rw [hrow]
  have : s.1 = t.1 ∧ s.2 = t.2 := by omega
  exact hne (Prod.ext this.1 this.2)

/-! ### Lemmas about the seat-marking fold -/

theorem writeSeats_nil (ev : Event) (v : Nat) (d : List Nat) : writeSeats ev v d [] = d := rfl

theorem writeSeats_cons (ev : Event) (v : Nat) (d : List Nat) (s : Nat × Nat)
    (seats : List (Nat × Nat)) :
    writeSeats ev v d (s :: seats) = writeSeats ev v (d.set (seatIndex ev s) v) seats := rfl

theorem writeSeats_length (ev : Event) (v : Nat) :
    ∀ (seats : List (Nat × Nat)) (d : List Nat), (writeSeats ev v d seats).length = d.length
  | [], _ => rfl
  | s :: rest, d => by
    rw [writeSeats_cons, writeSeats_length ev v rest, List.length_set]

theorem getD_writeSeats_preserved (ev : Event) (v : Nat) :
    ∀ (seats : List (Nat × Nat)) (d : List Nat) (i : Nat),
      i < d.length → d.getD i 0 = v → (writeSeats ev v d seats).getD i 0 = v
  | [], _, _, _, hv => hv
  | s :: rest, d, i, hlen, hv => by
    rw [writeSeats_cons]
    refine getD_writeSeats_preserved ev v rest _ i (by simpa using hlen) ?_
    by_cases hij : seatIndex ev s = i
    · subst hij; exact getD_set_self v (by omega)
    · rw [getD_set_ne v hij]; exact hv

theorem getD_writeSeats_mem (ev : Event) (v : Nat) :
    ∀ (seats : List (Nat × Nat)) (d : List Nat),
      (∀ s ∈ seats, seatIndex ev s < d.length) →
      ∀ s ∈ seats, (writeSeats ev v d seats).getD (seatIndex ev s) 0 = v := by
  intro seats
  induction seats with
  | nil => intro d _ s hs; cases hs
  | cons a rest ih =>
    intro d hb s hs
    rw [writeSeats_cons]
    rcases List.mem_cons.1 hs with rfl | hmem
    · exact getD_writeSeats_preserved ev v rest _ _
        (by rw [List.length_set]; exact hb s (by simp))
        (getD_set_self v (hb s (by simp)))
    · exact ih _ (fun t ht => by rw [List.length_set]; exact hb t (by simp [ht])) s hmem

theorem writeSeats_set_comm (ev : Event) (v : Nat) :
    ∀ (seats : List (Nat × Nat)) (d : List Nat) (i a : Nat),
      (∀ s ∈ seats, seatIndex ev s ≠ i) →
      writeSeats ev v (d.set i a) seats = (writeSeats ev v d seats).set i a
  | [], _, _, _, _ => rfl
  | s :: rest, d, i, a, h => by
    rw [writeSeats_cons, List.set_comm _ _ _ (fun he => h s (by simp) he.symm),
      writeSeats_set_comm ev v rest _ i a (fun t ht => h t (by simp [ht])),
      writeSeats_cons]


/-! ### Lemmas about the fine-grained claim loop -/

theorem p1_loop_nil (ev : Event) (rid : Nat) (d : List Nat) :
    p1_loop ev rid d [] = (d, [], true) := rfl

theorem p1_loop_cons_oob (ev : Event) (rid : Nat) (d : List Nat) {s : Nat × Nat}
    (seats : List (Nat × Nat)) (h : oob ev s = true) :
    p1_loop ev rid d (s :: seats) = (d, [], false) := by
  simp only [p1_loop]
  rw [if_pos h]

theorem p1_loop_cons_occupied (ev : Event) (rid : Nat) {d : List Nat} {s : Nat × Nat}
    (seats : List (Nat × Nat)) (h1 : oob ev s = false) (h2 : d.getD (seatIndex ev s) 0 ≠ 0) :
    p1_loop ev rid d (s :: seats) = (d, [], false) := by
  simp only [p1_loop]
  rw [if_neg (by simp [h1]), if_pos (bne_iff_ne.2 h2)]

theorem p1_loop_cons_free (ev : Event) (rid : Nat) {d : List Nat} {s : Nat × Nat}
    (seats : List (Nat × Nat)) (h1 : oob ev s = false) (h2 : d.getD (seatIndex ev s) 0 = 0) :
    p1_loop ev rid d (s :: seats) =
      ((p1_loop ev rid (d.set (seatIndex ev s) rid) seats).1,
       s :: (p1_loop ev rid (d.set (seatIndex ev s) rid) seats).2.1,
       (p1_loop ev rid (d.set (seatIndex ev s) rid) seats).2.2) := by
  simp only [p1_loop]
  rw [if_neg (by simp [h1]), if_neg (fun hcond => (bne_iff_ne.1 hcond) h2)]

theorem p1_loop_length (ev : Event) (rid : Nat) :
    ∀ (seats : List (Nat × Nat)) (d : List Nat), (p1_loop ev rid d seats).1.length = d.length
  | [], _ => rfl
  | s :: rest, d => by
    by_cases h1 : oob ev s
    · rw [p1_loop_cons_oob ev rid d rest h1]
    · have h1f : oob ev s = false := by simpa using h1
      by_cases h2 : d.getD (seatIndex ev s) 0 = 0
      · rw [p1_loop_cons_free ev rid rest h1f h2]
        rw [p1_loop_length ev rid rest _]
        simp
      · rw [p1_loop_cons_occupied ev rid rest h1f h2]

theorem p1_loop_success_all (ev : Event) (rid : Nat) :
    ∀ (seats : List (Nat × Nat)) (d : List Nat),
      (p1_loop ev rid d seats).2.2 = true → ∀ s ∈ seats, oob ev s = false
  | [], _, _, s, hs => by cases hs
  | s :: rest, d, h, t, ht => by
    by_cases h1 : oob ev s
    · rw [p1_loop_cons_oob ev rid d rest h1] at h
      exact Bool.noConfusion h
    · have h1f : oob ev s = false := by simpa using h1
      by_cases h2 : d.getD (seatIndex ev s) 0 = 0
      · rw [p1_loop_cons_free ev rid rest h1f h2] at h
        rcases List.mem_cons.1 ht with rfl | hmem
        · exact h1f
        · exact p1_loop_success_all ev rid rest _ h t hmem
      · rw [p1_loop_cons_occupied ev rid rest h1f h2] at h
        exact Bool.noConfusion h

theorem p1_loop_success_data (ev : Event) (rid : Nat) :
    ∀ (seats : List (Nat × Nat)) (d : List Nat),
      (p1_loop ev rid d seats).2.2 = true →
      (p1_loop ev rid d seats).1 = writeSeats ev rid d seats ∧
        (p1_loop ev rid d seats).2.1 = seats
  | [], d, _ => ⟨rfl, rfl⟩
  | s :: rest, d, h => by
    by_cases h1 : oob ev s
    · rw [p1_loop_cons_oob ev rid d rest h1] at h
      exact Bool.noConfusion h
    · have h1f : oob ev s = false := by simpa using h1
      by_cases h2 : d.getD (seatIndex ev s) 0 = 0
      · rw [p1_loop_cons_free ev rid rest h1f h2] at h ⊢
        obtain ⟨ha, hb⟩ := p1_loop_success_data ev rid rest (d.set (seatIndex ev s) rid) h
        exact ⟨by rw [ha, writeSeats_cons], by rw [hb]⟩
      · rw [p1_loop_cons_occupied ev rid rest h1f h2] at h
        exact Bool.noConfusion h

theorem p1_loop_inv (ev : Event) {rid : Nat} (hrid : rid ≠ 0) :
    ∀ (seats : List (Nat × Nat)) (d : List Nat), d.length = ev.rows * ev.cols →
      (∀ s ∈ (p1_loop ev rid d seats).2.1, oob ev s = false) ∧
      (∀ s ∈ (p1_loop ev rid d seats).2.1, d.getD (seatIndex ev s) 0 = 0) ∧
      ((p1_loop ev rid d seats).2.2 = false →
        writeSeats ev 0 (p1_loop ev rid d seats).1 (p1_loop ev rid d seats).2.1 = d)
  | [], d, _ => by
    rw [p1_loop_nil]
    exact ⟨(fun s hs => by cases hs), (fun s hs => by cases hs),
      (fun h => Bool.noConfusion h)⟩
  | s :: rest, d, hd => by
    by_cases h1 : oob ev s
    · rw [p1_loop_cons_oob ev rid d rest h1]
      exact ⟨(fun t ht => by cases ht), (fun t ht => by cases ht), (fun _ => rfl)⟩
    · have h1f : oob ev s = false := by simpa using h1
      by_cases h2 : d.getD (seatIndex ev s) 0 = 0
      · have hlt : seatIndex ev s < d.length := hd ▸ seatIndex_lt ev h1f
        have hd2 : (d.set (seatIndex ev s) rid).length = ev.rows * ev.cols := by
          simpa using hd
        obtain ⟨ha, hb, hc⟩ := p1_loop_inv ev hrid rest (d.set (seatIndex ev s) rid) hd2
        have hfresh : ∀ t ∈ (p1_loop ev rid (d.set (seatIndex ev s) rid) rest).2.1,
            seatIndex ev t ≠ seatIndex ev s := by
          intro t ht he
          have hzero := hb t ht
          rw [he, getD_set_self rid hlt] at hzero
          exact hrid hzero
        rw [p1_loop_cons_free ev rid rest h1f h2]
        refine ⟨?_, ?_, ?_⟩
        · intro t ht
          rcases List.mem_cons.1 ht with rfl | hmem
          · exact h1f
          · exact ha t hmem
        · intro t ht
          rcases List.mem_cons.1 ht with rfl | hmem
          · exact h2
          · have hzero := hb t hmem
            rwa [getD_set_ne rid (fun he => hfresh t hmem he.symm)] at hzero
        · intro hfail
          rw [writeSeats_cons, writeSeats_set_comm ev 0 _ _ _ _ hfresh, hc hfail,
            List.set_set, set_zero_of_getD_zero d _ h2]
      · rw [p1_loop_cons_occupied ev rid rest h1f h2]
        exact ⟨(fun t ht => by cases ht), (fun t ht => by cases ht), (fun _ => rfl)⟩

theorem p1_loop_true_iff (ev : Event) {rid : Nat} (hrid : rid ≠ 0) :
    ∀ (seats : List (Nat × Nat)) (d : List Nat), d.length = ev.rows * ev.cols →
      seats.Pairwise (· ≠ ·) →
      ((p1_loop ev rid d seats).2.2 = true ↔
        ∀ s ∈ seats, oob ev s = false ∧ d.getD (seatIndex ev s) 0 = 0)
  | [], d, _, _ => by simp [p1_loop_nil]
  | s :: rest, d, hd, hp => by
    obtain ⟨hhead, hrest⟩ := List.pairwise_cons.1 hp
    by_cases h1 : oob ev s
    · rw [p1_loop_cons_oob ev rid d rest h1]
      simp only [Bool.false_eq_true, false_iff]
      intro hall
      exact absurd (hall s (by simp)).1 (by simp [h1])
    · have h1f : oob ev s = false := by simpa using h1
      by_cases h2 : d.getD (seatIndex ev s) 0 = 0
      · have hd2 : (d.set (seatIndex ev s) rid).length = ev.rows * ev.cols := by
          simpa using hd
        rw [p1_loop_cons_free ev rid rest h1f h2]
        rw [p1_loop_true_iff ev hrid rest (d.set (seatIndex ev s) rid) hd2 hrest]
        constructor
        · intro hall t ht
          rcases List.mem_cons.1 ht with rfl | hmem
          · exact ⟨h1f, h2⟩
          · obtain ⟨ho, hg⟩ := hall t hmem
            refine ⟨ho, ?_⟩
            rwa [getD_set_ne rid
              (fun he => seatIndex_inj ev h1f ho (hhead t hmem) he)] at hg
        · intro hall t ht
          obtain ⟨ho, hg⟩ := hall t (by simp [ht])
          refine ⟨ho, ?_⟩
          rw [getD_set_ne rid (fun he => seatIndex_inj ev h1f ho (hhead t ht) he)]
          exact hg
      · rw [p1_loop_cons_occupied ev rid rest h1f h2]
        simp only [Bool.false_eq_true, false_iff]
        intro hall
        exact h2 (hall s (by simp)).2

/-! ### Characterization of the coarse variant and counter arithmetic -/

theorem any_oob_false {ev : Event} {seats : List (Nat × Nat)} :
    seats.any (oob ev) = false ↔ ∀ s ∈ seats, oob ev s = false := by
  simp [List.any_eq_false]

theorem p2_conflict_iff (ev : Event) (seats : List (Nat × Nat))
    (hb : ∀ s ∈ seats, oob ev s = false) :
    p2_conflict ev seats = true ↔ ∃ s ∈ seats, ev.data.getD (seatIndex ev s) 0 ≠ 0 := by
  unfold p2_conflict
  simp only [List.any_eq_true, List.mem_range, Bool.and_eq_true, beq_iff_eq, bne_iff_ne, ne_eq]
  constructor
  · rintro ⟨i, hi, s, hs, hidx, hnz⟩
    exact ⟨s, hs, by rw [hidx]; exact hnz⟩
  · rintro ⟨s, hs, hnz⟩
    exact ⟨seatIndex ev s, seatIndex_lt ev (hb s hs), s, hs, rfl, hnz⟩

theorem mod_small {r : Nat} (h : r + 1 < UINT32) : (r + 1) % UINT32 = r + 1 :=
  Nat.mod_eq_of_lt h

theorem restore_counter {r : Nat} (h : r + 1 < UINT32) :
    ((r + 1) % UINT32 + (UINT32 - 1)) % UINT32 = r := by
  rw [Nat.mod_eq_of_lt h]
  have h1 : 1 ≤ UINT32 := by norm_num [UINT32]
  have h2 : r + 1 + (UINT32 - 1) = r + UINT32 := by omega
  rw [h2, Nat.add_mod_right]
  exact Nat.mod_eq_of_lt (by omega)

theorem p2_reserve_err_oob (ev : Event) (seats : List (Nat × Nat))
    (hb : seats.any (oob ev) = true) :
    p2_reserve ev seats = .error .seatOutOfBounds := by
  unfold p2_reserve
  rw [if_pos hb]

theorem p2_reserve_err_conflict (ev : Event) (seats : List (Nat × Nat))
    (hb : seats.any (oob ev) = false) (hcf : p2_conflict ev seats = true) :
    p2_reserve ev seats = .error .seatAlreadyReserved := by
  unfold p2_reserve
  rw [if_neg (by simp [hb]), if_pos hcf]

theorem p2_reserve_ok_eq (ev : Event) (seats : List (Nat × Nat))
    (hb : seats.any (oob ev) = false) (hcf : p2_conflict ev seats = false) :
    p2_reserve ev seats =
      .ok { ev with
              reservations := (ev.reservations + 1) % UINT32,
              data := writeSeats ev ((ev.reservations + 1) % UINT32) ev.data seats } := by
  unfold p2_reserve
  rw [if_neg (by simp [hb]), if_neg (by simp [hcf])]

theorem p2_run_ok {ev ev2 : Event} {seats : List (Nat × Nat)}
    (h : p2_reserve ev seats = .ok ev2) : p2_run ev seats = (true, ev2) := by
  unfold p2_run
  rw [h]

theorem p2_run_err {ev : Event} {seats : List (Nat × Nat)} {e : RErr}
    (h : p2_reserve ev seats = .error e) : p2_run ev seats = (false, ev) := by
  unfold p2_run
  rw [h]

theorem p2_success_shape (ev : Event) (seats : List (Nat × Nat)) (ev2 : Event)
    (hres : p2_reserve ev seats = .ok ev2) :
    seats.any (oob ev) = false ∧ p2_conflict ev seats = false ∧
      ev2 = { ev with
                reservations := (ev.reservations + 1) % UINT32,
                data := writeSeats ev ((ev.reservations + 1) % UINT32) ev.data seats } := by
  by_cases hany : seats.any (oob ev) = true
  · rw [p2_reserve_err_oob ev seats hany] at hres
    exact Except.noConfusion hres
  · have hany2 : seats.any (oob ev) = false := by simpa using hany
    by_cases hcf : p2_conflict ev seats = true
    · rw [p2_reserve_err_conflict ev seats hany2 hcf] at hres
      exact Except.noConfusion hres
    · have hcf2 : p2_conflict ev seats = false := by simpa using hcf
      rw [p2_reserve_ok_eq ev seats hany2 hcf2] at hres
      injection hres with h
      exact ⟨hany2, hcf2, h.symm⟩

/-! ### Shape lemmas for the fine-grained variant -/

theorem p1_reserve_of_true (ev : Event) (seats : List (Nat × Nat))
    (h : (p1_loop ev ((ev.reservations + 1) % UINT32) ev.data seats).2.2 = true) :
    p1_reserve ev seats =
      (true, { ev with
                 reservations := (ev.reservations + 1) % UINT32,
                 data := (p1_loop ev ((ev.reservations + 1) % UINT32) ev.data seats).1 }) := by
  simp only [p1_reserve]
  rw [if_pos h]

theorem p1_reserve_of_false (ev : Event) (seats : List (Nat × Nat))
    (h : (p1_loop ev ((ev.reservations + 1) % UINT32) ev.data seats).2.2 = false) :
    p1_reserve ev seats =
      (false,
        { ev with
            reservations := ((ev.reservations + 1) % UINT32 + (UINT32 - 1)) % UINT32,
            data := writeSeats ev 0
              (p1_loop ev ((ev.reservations + 1) % UINT32) ev.data seats).1
              (p1_loop ev ((ev.reservations + 1) % UINT32) ev.data seats).2.1 }) := by
  simp only [p1_reserve]
  rw [if_neg (by simp [h])]

theorem p1_reserve_fail_state (ev : Event) (seats : List (Nat × Nat)) (hwf : wfData ev)
    (hc : ev.reservations + 1 < UINT32)
    (h : (p1_loop ev ((ev.reservations + 1) % UINT32) ev.data seats).2.2 = false) :
    p1_reserve ev seats = (false, ev) := by
  have hrid : (ev.reservations + 1) % UINT32 ≠ 0 := by rw [mod_small hc]; omega
  obtain ⟨-, -, hroll⟩ := p1_loop_inv ev hrid seats ev.data hwf
  rw [p1_reserve_of_false ev seats h, restore_counter hc, hroll h]

theorem p1_success_shape (ev : Event) (seats : List (Nat × Nat)) (ev2 : Event)
    (h : p1_reserve ev seats = (true, ev2)) :
    (p1_loop ev ((ev.reservations + 1) % UINT32) ev.data seats).2.2 = true ∧
      ev2 = { ev with
                reservations := (ev.reservations + 1) % UINT32,
                data := writeSeats ev ((ev.reservations + 1) % UINT32) ev.data seats } := by
  by_cases hl : (p1_loop ev ((ev.reservations + 1) % UINT32) ev.data seats).2.2 = true
  · rw [p1_reserve_of_true ev seats hl] at h
    obtain ⟨hdata, -⟩ :=
      p1_loop_success_data ev ((ev.reservations + 1) % UINT32) seats ev.data hl
    injection h with h1 h2
    exact ⟨hl, by rw [← h2, hdata]⟩
  · have hl2 : (p1_loop ev ((ev.reservations + 1) % UINT32) ev.data seats).2.2 = false := by
      simpa using hl
    rw [p1_reserve_of_false ev seats hl2] at h
    injection h with h1 h2
    exact Bool.noConfusion h1

/-! ### Claims about the reserve operation -/

/-- C1: for every reserve call on an existing event, in both variants, the
call either fully succeeds — every requested seat cell holds the one new
reservation id `reservations + 1` — or fully fails leaving the event (grid
and counter) exactly as before the call, whether the failure is
out-of-bounds or a seat conflict. -/
theorem c1_reserve_all_or_nothing (ev : Event) (seats : List (Nat × Nat))
    (hwf : wfData ev) (hc : ev.reservations + 1 < UINT32) :
    ((p2_run ev seats).1 = true →
      (p2_run ev seats).2.reservations = ev.reservations + 1 ∧
      ∀ s ∈ seats, (p2_run ev seats).2.data.getD (seatIndex ev s) 0 =
        (p2_run ev seats).2.reservations) ∧
    ((p2_run ev seats).1 = false → (p2_run ev seats).2 = ev) ∧
    ((p1_reserve ev seats).1 = true →
      (p1_reserve ev seats).2.reservations = ev.reservations + 1 ∧
      ∀ s ∈ seats, (p1_reserve ev seats).2.data.getD (seatIndex ev s) 0 =
        (p1_reserve ev seats).2.reservations) ∧
    ((p1_reserve ev seats).1 = false → (p1_reserve ev seats).2 = ev) := by
  refine ⟨?_, ?_, ?_, ?_⟩
  · intro h
    rcases hres : p2_reserve ev seats with e | ev2
    · rw [p2_run_err hres] at h
      exact Bool.noConfusion h
    · obtain ⟨hany, hcf, hshape⟩ := p2_success_shape ev seats ev2 hres
      rw [p2_run_ok hres]
      subst hshape
      refine ⟨mod_small hc, ?_⟩
      intro s hs
      refine getD_writeSeats_mem ev _ seats ev.data ?_ s hs
      intro t ht
      rw [hwf]
      exact seatIndex_lt ev (any_oob_false.1 hany t ht)
  · intro h
    rcases hres : p2_reserve ev seats with e | ev2
    · rw [p2_run_err hres]
    · rw [p2_run_ok hres] at h
      exact Bool.noConfusion h
  · intro h
    rcases hres : p1_reserve ev seats with ⟨b, ev2⟩
    have hb : b = true := h.symm.trans (congrArg Prod.fst hres) |>.symm
    subst hb
    obtain ⟨hl, hshape⟩ := p1_success_shape ev seats ev2 hres
    subst hshape
    refine ⟨mod_small hc, ?_⟩
    intro s hs
    have hall := p1_loop_success_all ev ((ev.reservations + 1) % UINT32) seats ev.data hl
    refine getD_writeSeats_mem ev _ seats ev.data ?_ s hs
    intro t ht
    rw [hwf]
    exact seatIndex_lt ev (hall t ht)
  · intro h
    by_cases hl : (p1_loop ev ((ev.reservations + 1) % UINT32) ev.data seats).2.2 = true
    · rw [p1_reserve_of_true ev seats hl] at h
      exact Bool.noConfusion h
    · have hl2 : (p1_loop ev ((ev.reservations + 1) % UINT32) ev.data seats).2.2 = false := by
        simpa using hl
      rw [p1_reserve_fail_state ev seats hwf hc hl2]

/-- Witness for C1: a concrete well-formed event and request. -/
theorem c1_reserve_all_or_nothing_witness :
    wfData ⟨1, 2, 2, 0, [0, 0, 0, 0]⟩ ∧
    (⟨1, 2, 2, 0, [0, 0, 0, 0]⟩ : Event).reservations + 1 < UINT32 ∧
    (((p2_run ⟨1, 2, 2, 0, [0, 0, 0, 0]⟩ [(1, 1), (2, 2)]).1 = true →
      (p2_run ⟨1, 2, 2, 0, [0, 0, 0, 0]⟩ [(1, 1), (2, 2)]).2.reservations =
        (⟨1, 2, 2, 0, [0, 0, 0, 0]⟩ : Event).reservations + 1 ∧
      ∀ s ∈ [((1 : Nat), (1 : Nat)), (2, 2)],
        (p2_run ⟨1, 2, 2, 0, [0, 0, 0, 0]⟩ [(1, 1), (2, 2)]).2.data.getD
            (seatIndex ⟨1, 2, 2, 0, [0, 0, 0, 0]⟩ s) 0 =
          (p2_run ⟨1, 2, 2, 0, [0, 0, 0, 0]⟩ [(1, 1), (2, 2)]).2.reservations) ∧
    ((p2_run ⟨1, 2, 2, 0, [0, 0, 0, 0]⟩ [(1, 1), (2, 2)]).1 = false →
      (p2_run ⟨1, 2, 2, 0, [0, 0, 0, 0]⟩ [(1, 1), (2, 2)]).2 = ⟨1, 2, 2, 0, [0, 0, 0, 0]⟩) ∧
    ((p1_reserve ⟨1, 2, 2, 0, [0, 0, 0, 0]⟩ [(1, 1), (2, 2)]).1 = true →
      (p1_reserve ⟨1, 2, 2, 0, [0, 0, 0, 0]⟩ [(1, 1), (2, 2)]).2.reservations =
        (⟨1, 2, 2, 0, [0, 0, 0, 0]⟩ : Event).reservations + 1 ∧
      ∀ s ∈ [((1 : Nat), (1 : Nat)), (2, 2)],
        (p1_reserve ⟨1, 2, 2, 0, [0, 0, 0, 0]⟩ [(1, 1), (2, 2)]).2.data.getD
            (seatIndex ⟨1, 2, 2, 0, [0, 0, 0, 0]⟩ s) 0 =
          (p1_reserve ⟨1, 2, 2, 0, [0, 0, 0, 0]⟩ [(1, 1), (2, 2)]).2.reservations) ∧
    ((p1_reserve ⟨1, 2, 2, 0, [0, 0, 0, 0]⟩ [(1, 1), (2, 2)]).1 = false →
      (p1_reserve ⟨1, 2, 2, 0, [0, 0, 0, 0]⟩ [(1, 1), (2, 2)]).2 = ⟨1, 2, 2, 0, [0, 0, 0, 0]⟩)) :=
  ⟨by decide, by decide,
    c1_reserve_all_or_nothing ⟨1, 2, 2, 0, [0, 0, 0, 0]⟩ [(1, 1), (2, 2)]
      (by decide) (by decide)⟩

/-- C2 counterexample: the two strategies are NOT equivalent on a request
that lists the same seat twice.  On a fresh 1 by 1 event with request
[(1,1), (1,1)] the coarse variant succeeds and marks the seat, while the
fine-grained variant claims the seat, finds it occupied at the duplicate,
and rolls everything back with failure — different outcome AND different
end grid. -/
theorem c2_counterexample :
    p2_run ⟨1, 1, 1, 0, [0]⟩ [(1, 1), (1, 1)] = (true, ⟨1, 1, 1, 1, [1]⟩) ∧
    p1_reserve ⟨1, 1, 1, 0, [0]⟩ [(1, 1), (1, 1)] = (false, ⟨1, 1, 1, 0, [0]⟩) := by
  decide

/-- C2 (amended): for every event state and every request whose seat list is
pairwise distinct, the coarse pre-scan strategy and the fine-grained
claim-and-rollback strategy return the same success/failure outcome and
leave the same observable end state.  (For requests repeating a seat the
two variants disagree, see the counterexample.) -/
theorem c2_equiv_on_distinct (ev : Event) (seats : List (Nat × Nat)) (hwf : wfData ev)
    (hc : ev.reservations + 1 < UINT32) (hnd : seats.Pairwise (· ≠ ·)) :
    p2_run ev seats = p1_reserve ev seats := by
  have hrid : (ev.reservations + 1) % UINT32 ≠ 0 := by rw [mod_small hc]; omega
  by_cases hbad : ∀ s ∈ seats, oob ev s = false ∧ ev.data.getD (seatIndex ev s) 0 = 0
  · have hany : seats.any (oob ev) = false := any_oob_false.2 fun s hs => (hbad s hs).1
    have hcf : p2_conflict ev seats = false := by
      cases hcfb : p2_conflict ev seats
      · rfl
      · obtain ⟨s, hs, hnz⟩ :=
          (p2_conflict_iff ev seats fun s hs => (hbad s hs).1).1 hcfb
        exact absurd (hbad s hs).2 hnz
    have hloop : (p1_loop ev ((ev.reservations + 1) % UINT32) ev.data seats).2.2 = true :=
      (p1_loop_true_iff ev hrid seats ev.data hwf hnd).2 hbad
    rw [p2_run_ok (p2_reserve_ok_eq ev seats hany hcf), p1_reserve_of_true ev seats hloop]
    obtain ⟨hdata, -⟩ :=
      p1_loop_success_data ev ((ev.reservations + 1) % UINT32) seats ev.data hloop
    rw [hdata]
  · have hloop : (p1_loop ev ((ev.reservations + 1) % UINT32) ev.data seats).2.2 = false := by
      cases hlb : (p1_loop ev ((ev.reservations + 1) % UINT32) ev.data seats).2.2
      · rfl
      · exact absurd ((p1_loop_true_iff ev hrid seats ev.data hwf hnd).1 hlb) hbad
    rw [p1_reserve_fail_state ev seats hwf hc hloop]
    push_neg at hbad
    obtain ⟨s0, hs0, hnp⟩ := hbad
    by_cases hany : seats.any (oob ev) = true
    · rw [p2_run_err (p2_reserve_err_oob ev seats hany)]
    · have hany2 : seats.any (oob ev) = false := by simpa using hany
      have hball : ∀ s ∈ seats, oob ev s = false := any_oob_false.1 hany2
      have hcf : p2_conflict ev seats = true :=
        (p2_conflict_iff ev seats hball).2 ⟨s0, hs0, hnp (hball s0 hs0)⟩
      rw [p2_run_err (p2_reserve_err_conflict ev seats hany2 hcf)]

/-- Witness for the amended C2: a concrete event with one occupied seat and
a duplicate-free request. -/
theorem c2_equiv_on_distinct_witness :
    wfData ⟨1, 2, 2, 3, [0, 7, 0, 0]⟩ ∧
    (⟨1, 2, 2, 3, [0, 7, 0, 0]⟩ : Event).reservations + 1 < UINT32 ∧
    ([((1 : Nat), (1 : Nat)), (2, 1)] : List (Nat × Nat)).Pairwise (· ≠ ·) ∧
    p2_run ⟨1, 2, 2, 3, [0, 7, 0, 0]⟩ [(1, 1), (2, 1)] =
      p1_reserve ⟨1, 2, 2, 3, [0, 7, 0, 0]⟩ [(1, 1), (2, 1)] :=
  ⟨by decide, by decide, by decide,
    c2_equiv_on_distinct ⟨1, 2, 2, 3, [0, 7, 0, 0]⟩ [(1, 1), (2, 1)]
      (by decide) (by decide) (by decide)⟩

/-- C4: a reserve request containing any out-of-bounds seat fails as a whole
— the coarse variant with the `seatOutOfBounds` error from its up-front
validation pass, the fine-grained variant by stopping and rolling back —
and in both variants the event afterwards equals the event before. -/
theorem c4_oob_request_fails (ev : Event) (seats : List (Nat × Nat)) (hwf : wfData ev)
    (hc : ev.reservations + 1 < UINT32) (hoob : ∃ s ∈ seats, oob ev s = true) :
    p2_reserve ev seats = .error .seatOutOfBounds ∧ p1_reserve ev seats = (false, ev) := by
  obtain ⟨s0, hs0, hs0b⟩ := hoob
  have hany : seats.any (oob ev) = true := List.any_eq_true.2 ⟨s0, hs0, hs0b⟩
  refine ⟨p2_reserve_err_oob ev seats hany, ?_⟩
  have hloop : (p1_loop ev ((ev.reservations + 1) % UINT32) ev.data seats).2.2 = false := by
    cases hlb : (p1_loop ev ((ev.reservations + 1) % UINT32) ev.data seats).2.2
    · rfl
    · have hall := p1_loop_success_all ev ((ev.reservations + 1) % UINT32) seats ev.data hlb
      rw [hall s0 hs0] at hs0b
      exact Bool.noConfusion hs0b
  exact p1_reserve_fail_state ev seats hwf hc hloop

/-- Witness for C4: request [(1,1), (3,1)] on a 2 by 2 event — the second
seat's row is out of range. -/
theorem c4_oob_request_fails_witness :
    wfData ⟨1, 2, 2, 5, [0, 9, 0, 0]⟩ ∧
    (⟨1, 2, 2, 5, [0, 9, 0, 0]⟩ : Event).reservations + 1 < UINT32 ∧
    (∃ s ∈ [((1 : Nat), (1 : Nat)), (3, 1)], oob ⟨1, 2, 2, 5, [0, 9, 0, 0]⟩ s = true) ∧
    p2_reserve ⟨1, 2, 2, 5, [0, 9, 0, 0]⟩ [(1, 1), (3, 1)] = .error .seatOutOfBounds ∧
    p1_reserve ⟨1, 2, 2, 5, [0, 9, 0, 0]⟩ [(1, 1), (3, 1)] =
      (false, ⟨1, 2, 2, 5, [0, 9, 0, 0]⟩) :=
  ⟨by decide, by decide, by decide,
    c4_oob_request_fails ⟨1, 2, 2, 5, [0, 9, 0, 0]⟩ [(1, 1), (3, 1)]
      (by decide) (by decide) (by decide)⟩

/-- C8 counterexample: a reserve call with ZERO seats does not fail — on a
fresh 1 by 1 event both variants return success and consume reservation
id 1 while marking nothing. -/
theorem c8_counterexample :
    p2_reserve ⟨1, 1, 1, 0, [0]⟩ [] = .ok ⟨1, 1, 1, 1, [0]⟩ ∧
    p1_reserve ⟨1, 1, 1, 0, [0]⟩ [] = (true, ⟨1, 1, 1, 1, [0]⟩) := by
  decide

/-- C8 (amended): in both variants a reserve call with an empty seat
sequence is accepted: it succeeds vacuously, leaves the grid unchanged, and
does consume a new reservation id (`++reservation_counter`).  Rejecting
zero-seat RESERVE commands is the job of the (out-of-scope) parser, not of
`ems_reserve`. -/
theorem c8_empty_reserve_succeeds (ev : Event) (hc : ev.reservations + 1 < UINT32) :
    p2_reserve ev [] = .ok { ev with reservations := ev.reservations + 1 } ∧
    p1_reserve ev [] = (true, { ev with reservations := ev.reservations + 1 }) := by
  constructor
  · have hcf : p2_conflict ev [] = false := by simp [p2_conflict]
    rw [p2_reserve_ok_eq ev [] rfl hcf, mod_small hc]
    rfl
  · rw [p1_reserve_of_true ev [] rfl, mod_small hc]
    rfl

/-- Witness for the amended C8. -/
theorem c8_empty_reserve_succeeds_witness :
    (⟨2, 1, 1, 5, [9]⟩ : Event).reservations + 1 < UINT32 ∧
    (p2_reserve ⟨2, 1, 1, 5, [9]⟩ [] = .ok ⟨2, 1, 1, 6, [9]⟩ ∧
      p1_reserve ⟨2, 1, 1, 5, [9]⟩ [] = (true, ⟨2, 1, 1, 6, [9]⟩)) :=
  ⟨by decide, c8_empty_reserve_succeeds ⟨2, 1, 1, 5, [9]⟩ (by decide)⟩

/-! ### Reservation-id sequences (claim C3) -/

theorem runSeq_nil (step : Event → List (Nat × Nat) → Bool × Event) (ev : Event) :
    runSeq step ev [] = (ev, []) := rfl

theorem runSeq_cons (step : Event → List (Nat × Nat) → Bool × Event) (ev : Event)
    (req : List (Nat × Nat)) (rest : List (List (Nat × Nat))) :
    runSeq step ev (req :: rest) =
      ((runSeq step (step ev req).2 rest).1,
       if (step ev req).1 then
         (step ev req).2.reservations :: (runSeq step (step ev req).2 rest).2
       else (runSeq step (step ev req).2 rest).2) := rfl

theorem p2_step_fact (ev : Event) (req : List (Nat × Nat)) (hwf : wfData ev)
    (hc : ev.reservations + 1 < UINT32) :
    wfData (p2_run ev req).2 ∧
    ((p2_run ev req).1 = true → (p2_run ev req).2.reservations = ev.reservations + 1) ∧
    ((p2_run ev req).1 = false → (p2_run ev req).2 = ev) := by
  rcases hres : p2_reserve ev req with e | ev2
  · rw [p2_run_err hres]
    exact ⟨hwf, (fun h => Bool.noConfusion h), (fun _ => rfl)⟩
  · obtain ⟨hany, hcf, hshape⟩ := p2_success_shape ev req ev2 hres
    rw [p2_run_ok hres]
    subst hshape
    refine ⟨?_, (fun _ => mod_small hc), (fun h => Bool.noConfusion h)⟩
    unfold wfData
    show (writeSeats ev ((ev.reservations + 1) % UINT32) ev.data req).length =
      ev.rows * ev.cols
    rw [writeSeats_length]
    exact hwf

theorem p1_step_fact (ev : Event) (req : List (Nat × Nat)) (hwf : wfData ev)
    (hc : ev.reservations + 1 < UINT32) :
    wfData (p1_reserve ev req).2 ∧
    ((p1_reserve ev req).1 = true → (p1_reserve ev req).2.reservations = ev.reservations + 1) ∧
    ((p1_reserve ev req).1 = false → (p1_reserve ev req).2 = ev) := by
  by_cases hl : (p1_loop ev ((ev.reservations + 1) % UINT32) ev.data req).2.2 = true
  · rw [p1_reserve_of_true ev req hl]
    refine ⟨?_, (fun _ => mod_small hc), (fun h => Bool.noConfusion h)⟩
    unfold wfData
    show (p1_loop ev ((ev.reservations + 1) % UINT32) ev.data req).1.length =
      ev.rows * ev.cols
    rw [p1_loop_length]
    exact hwf
  · have hl2 : (p1_loop ev ((ev.reservations + 1) % UINT32) ev.data req).2.2 = false := by
      simpa using hl
    rw [p1_reserve_fail_state ev req hwf hc hl2]
    exact ⟨hwf, (fun h => Bool.noConfusion h), (fun _ => rfl)⟩

theorem runSeq_ids (step : Event → List (Nat × Nat) → Bool × Event)
    (hstep : ∀ ev req, wfData ev → ev.reservations + 1 < UINT32 →
      wfData (step ev req).2 ∧
      ((step ev req).1 = true → (step ev req).2.reservations = ev.reservations + 1) ∧
      ((step ev req).1 = false → (step ev req).2 = ev)) :
    ∀ (reqs : List (List (Nat × Nat))) (ev : Event), wfData ev →
      ev.reservations + reqs.length < UINT32 →
      wfData (runSeq step ev reqs).1 ∧
      ev.reservations ≤ (runSeq step ev reqs).1.reservations ∧
      (runSeq step ev reqs).1.reservations ≤ ev.reservations + reqs.length ∧
      (∀ i ∈ (runSeq step ev reqs).2,
        ev.reservations < i ∧ i ≤ (runSeq step ev reqs).1.reservations) ∧
      (runSeq step ev reqs).2.Pairwise (· < ·)
  | [], ev, hwf, _ => by
    rw [runSeq_nil]
    exact ⟨hwf, le_refl _, by simp, (fun i hi => by cases hi), List.Pairwise.nil⟩
  | req :: rest, ev, hwf, hb => by
    have hlen : (req :: rest).length = rest.length + 1 := List.length_cons _ _
    have hc : ev.reservations + 1 < UINT32 := by omega
    obtain ⟨hswf, hstrue, hsfalse⟩ := hstep ev req hwf hc
    rw [runSeq_cons]
    cases hok : (step ev req).1
    · have hsame : (step ev req).2 = ev := hsfalse hok
      rw [if_neg (by simp), hsame]
      dsimp only
      obtain ⟨iwf, ige, ile, imem, ipw⟩ :=
        runSeq_ids step hstep rest ev hwf (by omega)
      exact ⟨iwf, ige, by omega, imem, ipw⟩
    · have hnext : (step ev req).2.reservations = ev.reservations + 1 := hstrue hok
      obtain ⟨iwf, ige, ile, imem, ipw⟩ :=
        runSeq_ids step hstep rest (step ev req).2 hswf (by omega)
      rw [if_pos (rfl : true = true)]
      dsimp only
      refine ⟨iwf, by omega, by omega, ?_, ?_⟩
      · intro i hi
        rcases List.mem_cons.1 hi with rfl | hmem
        · constructor
          · omega
          · exact ige
        · obtain ⟨higt, hile⟩ := imem i hmem
          exact ⟨by omega, hile⟩
      · refine List.pairwise_cons.2 ⟨?_, ipw⟩
        intro i hmem
        have := (imem i hmem).1
        omega

/-- C3: in both variants, over any (feasible) sequence of reserve requests
against one event, each successful call hands out `++reservation_counter`;
the ids of successful reservations are strictly increasing, pairwise
distinct, and never zero — including in the fine-grained variant, whose
early counter increment is provably undone on every failing call. -/
theorem c3_ids_strict_mono (ev : Event) (reqs : List (List (Nat × Nat))) (hwf : wfData ev)
    (hb : ev.reservations + reqs.length < UINT32) :
    ((runSeq p2_run ev reqs).2.Pairwise (· < ·) ∧
      (runSeq p2_run ev reqs).2.Pairwise (· ≠ ·) ∧
      ∀ i ∈ (runSeq p2_run ev reqs).2, i ≠ 0) ∧
    ((runSeq p1_reserve ev reqs).2.Pairwise (· < ·) ∧
      (runSeq p1_reserve ev reqs).2.Pairwise (· ≠ ·) ∧
      ∀ i ∈ (runSeq p1_reserve ev reqs).2, i ≠ 0) := by
  obtain ⟨-, -, -, hmem2, hpw2⟩ :=
    runSeq_ids p2_run (fun e r hw hc => p2_step_fact e r hw hc) reqs ev hwf hb
  obtain ⟨-, -, -, hmem1, hpw1⟩ :=
    runSeq_ids p1_reserve (fun e r hw hc => p1_step_fact e r hw hc) reqs ev hwf hb
  refine ⟨⟨hpw2, hpw2.imp (fun h => Nat.ne_of_lt h), ?_⟩,
    ⟨hpw1, hpw1.imp (fun h => Nat.ne_of_lt h), ?_⟩⟩
  · intro i hi
    have := (hmem2 i hi).1
    omega
  · intro i hi
    have := (hmem1 i hi).1
    omega

/-- Witness for C3: three requests on a 1 by 2 event, the second conflicts;
both variants hand out ids 1 and 2. -/
theorem c3_ids_strict_mono_witness :
    wfData ⟨7, 1, 2, 0, [0, 0]⟩ ∧
    (⟨7, 1, 2, 0, [0, 0]⟩ : Event).reservations +
      ([[((1 : Nat), (1 : Nat))], [(1, 1)], [(1, 2)]] : List (List (Nat × Nat))).length < UINT32 ∧
    (((runSeq p2_run ⟨7, 1, 2, 0, [0, 0]⟩ [[(1, 1)], [(1, 1)], [(1, 2)]]).2.Pairwise (· < ·) ∧
      (runSeq p2_run ⟨7, 1, 2, 0, [0, 0]⟩ [[(1, 1)], [(1, 1)], [(1, 2)]]).2.Pairwise (· ≠ ·) ∧
      ∀ i ∈ (runSeq p2_run ⟨7, 1, 2, 0, [0, 0]⟩ [[(1, 1)], [(1, 1)], [(1, 2)]]).2, i ≠ 0) ∧
    ((runSeq p1_reserve ⟨7, 1, 2, 0, [0, 0]⟩ [[(1, 1)], [(1, 1)], [(1, 2)]]).2.Pairwise (· < ·) ∧
      (runSeq p1_reserve ⟨7, 1, 2, 0, [0, 0]⟩ [[(1, 1)], [(1, 1)], [(1, 2)]]).2.Pairwise (· ≠ ·) ∧
      ∀ i ∈ (runSeq p1_reserve ⟨7, 1, 2, 0, [0, 0]⟩ [[(1, 1)], [(1, 1)], [(1, 2)]]).2, i ≠ 0)) :=
  ⟨by decide, by decide,
    c3_ids_strict_mono ⟨7, 1, 2, 0, [0, 0]⟩ [[(1, 1)], [(1, 1)], [(1, 2)]]
      (by decide) (by decide)⟩

/-- C10: every failing Proj2 reserve call — engine not initialized, event
not found, a seat out of bounds, or a seat already reserved — leaves the
whole engine state (in particular the target event's reservation counter
and grid) unchanged: the counter is incremented only after all validation
and conflict checks have passed. -/
theorem c10_p2_fail_frame (st : Ptr P2Reg) (i : Nat) (seats : List (Nat × Nat)) (e : RErr)
    (h : (p2_reserveCall st i seats).1 = some e) :
    (p2_reserveCall st i seats).2 = st := by
  cases st with
  | null => rfl
  | dangling => rfl
  | valid reg =>
    simp only [p2_reserveCall] at h ⊢
    cases hf : findEvent reg.events i with
    | none => simp [hf]
    | some ev =>
      cases hres : p2_reserve ev seats with
      | error e2 => simp [hf, hres]
      | ok ev2 => simp [hf, hres] at h

/-- Witness for C10: a conflicting reserve on a 1 by 1 event with its single
seat already taken. -/
theorem c10_p2_fail_frame_witness :
    (p2_reserveCall (.valid ⟨[⟨1, 1, 1, 1, [1]⟩], 1⟩) 1 [(1, 1)]).1 =
      some RErr.seatAlreadyReserved ∧
    (p2_reserveCall (.valid ⟨[⟨1, 1, 1, 1, [1]⟩], 1⟩) 1 [(1, 1)]).2 =
      .valid ⟨[⟨1, 1, 1, 1, [1]⟩], 1⟩ :=
  ⟨by decide,
    c10_p2_fail_frame (.valid ⟨[⟨1, 1, 1, 1, [1]⟩], 1⟩) 1 [(1, 1)]
      RErr.seatAlreadyReserved (by decide)⟩

/-! ### Claims about create and the engine lifecycle -/

/-- C5: `ems_create` in both variants fails on a duplicate id leaving the
registry unchanged; on a fresh id it appends (at the tail, so insertion
order is creation order) a new event with an all-zero grid and reservation
counter 0, growing the registry by exactly one (and, in Proj2, bumping
`num_events`). -/
theorem c5_create (reg : P2Reg) (evs : P1Reg) (i j rows cols : Nat)
    (hdup2 : (findEvent reg.events i).isSome = true)
    (hfresh2 : findEvent reg.events j = none)
    (hdup1 : (findEvent evs i).isSome = true)
    (hfresh1 : findEvent evs j = none) :
    p2_create (.valid reg) i rows cols = (false, .valid reg) ∧
    p2_create (.valid reg) j rows cols =
      (true, .valid { events := reg.events ++ [newEvent j rows cols],
                      numEvents := reg.numEvents + 1 }) ∧
    (reg.events ++ [newEvent j rows cols]).length = reg.events.length + 1 ∧
    p1_create (some evs) i rows cols = (false, some evs) ∧
    p1_create (some evs) j rows cols = (true, some (evs ++ [newEvent j rows cols])) ∧
    (evs ++ [newEvent j rows cols]).length = evs.length + 1 ∧
    (newEvent j rows cols).reservations = 0 ∧
    (newEvent j rows cols).data = List.replicate (rows * cols) 0 := by
  refine ⟨?_, ?_, by simp, ?_, ?_, by simp, rfl, rfl⟩
  · simp only [p2_create]
    cases hf : findEvent reg.events i with
    | none => rw [hf] at hdup2; exact Bool.noConfusion hdup2
    | some e0 => simp [hf]
  · simp only [p2_create]
    simp [hfresh2]
  · simp only [p1_create]
    cases hf : findEvent evs i with
    | none => rw [hf] at hdup1; exact Bool.noConfusion hdup1
    | some e0 => simp [hf]
  · simp only [p1_create]
    simp [hfresh1]

/-- Witness for C5: a registry holding event 1; id 1 is a duplicate, id 2 is
fresh. -/
theorem c5_create_witness :
    (findEvent [newEvent 1 2 2] 1).isSome = true ∧
    findEvent [newEvent 1 2 2] 2 = none ∧
    (p2_create (.valid ⟨[newEvent 1 2 2], 1⟩) 1 1 3 = (false, .valid ⟨[newEvent 1 2 2], 1⟩) ∧
      p2_create (.valid ⟨[newEvent 1 2 2], 1⟩) 2 1 3 =
        (true, .valid { events := [newEvent 1 2 2] ++ [newEvent 2 1 3],
                        numEvents := (⟨[newEvent 1 2 2], 1⟩ : P2Reg).numEvents + 1 }) ∧
      ([newEvent 1 2 2] ++ [newEvent 2 1 3]).length = [newEvent 1 2 2].length + 1 ∧
      p1_create (some [newEvent 1 2 2]) 1 1 3 = (false, some [newEvent 1 2 2]) ∧
      p1_create (some [newEvent 1 2 2]) 2 1 3 =
        (true, some ([newEvent 1 2 2] ++ [newEvent 2 1 3])) ∧
      ([newEvent 1 2 2] ++ [newEvent 2 1 3]).length = [newEvent 1 2 2].length + 1 ∧
      (newEvent 2 1 3).reservations = 0 ∧
      (newEvent 2 1 3).data = List.replicate (1 * 3) 0) :=
  ⟨by decide, by decide,
    c5_create ⟨[newEvent 1 2 2], 1⟩ [newEvent 1 2 2] 1 2 1 3
      (by decide) (by decide) (by decide) (by decide)⟩

/-- C6: the lifecycle claim holds for Proj1 but FAILS on the Proj2 code: a
second `ems_init` without intervening terminate fails in both variants, and
`ems_terminate` before any init fails in both variants, but after a
successful `ems_terminate`, re-initialization succeeds only in Proj1 —
Proj2's `ems_terminate` frees the list without resetting the static
`event_list` pointer to NULL (it even unlocks the freed lock), so the
subsequent `ems_init` sees a non-NULL pointer and fails. -/
theorem c6_lifecycle_divergence :
    (p2_init .null).1 = true ∧
    (p2_terminate (p2_init .null).2).1 = true ∧
    (p2_init (p2_terminate (p2_init .null).2).2).1 = false ∧
    p1_init (p1_terminate (p1_init none).2).2 = (true, some []) ∧
    (p2_init (p2_init .null).2).1 = false ∧
    (p1_init (p1_init none).2).1 = false ∧
    (p2_terminate .null).1 = false ∧
    (p1_terminate none).1 = false := by
  decide

/-! ### Listing events (claim C7) -/

theorem findEvent_none_iff (evs : List Event) (i : Nat) :
    findEvent evs i = none ↔ ∀ e ∈ evs, e.id ≠ i := by
  simp [findEvent, List.find?_eq_none]

theorem findEvent_append_new (evs : List Event) (i rows cols : Nat)
    (h : findEvent evs i = none) :
    findEvent (evs ++ [newEvent i rows cols]) i = some (newEvent i rows cols) := by
  unfold findEvent at h ⊢
  rw [List.find?_append, h]
  simp [List.find?, newEvent]

theorem p2_runCreates_nil (st : Ptr P2Reg) : p2_runCreates st [] = st := rfl

theorem p2_runCreates_cons (st : Ptr P2Reg) (r : Nat × Nat × Nat)
    (rest : List (Nat × Nat × Nat)) :
    p2_runCreates st (r :: rest) = p2_runCreates (p2_create st r.1 r.2.1 r.2.2).2 rest := rfl

theorem p1_runCreates_nil (st : Option P1Reg) : p1_runCreates st [] = st := rfl

theorem p1_runCreates_cons (st : Option P1Reg) (r : Nat × Nat × Nat)
    (rest : List (Nat × Nat × Nat)) :
    p1_runCreates st (r :: rest) = p1_runCreates (p1_create st r.1 r.2.1 r.2.2).2 rest := rfl

theorem p2_runCreates_spec :
    ∀ (reqs : List (Nat × Nat × Nat)) (evs : List Event) (n : Nat),
      (∀ r ∈ reqs, ∀ e ∈ evs, e.id ≠ r.1) → (reqs.map (·.1)).Nodup →
      p2_runCreates (.valid ⟨evs, n⟩) reqs =
        .valid ⟨evs ++ reqs.map (fun r => newEvent r.1 r.2.1 r.2.2), n + reqs.length⟩
  | [], evs, n, _, _ => by simp [p2_runCreates_nil]
  | q :: rest, evs, n, hfr, hnd => by
    have hnone : findEvent evs q.1 = none :=
      (findEvent_none_iff evs q.1).2 fun e he => hfr q (by simp) e he
    have hcr : p2_create (.valid ⟨evs, n⟩) q.1 q.2.1 q.2.2 =
        (true, .valid ⟨evs ++ [newEvent q.1 q.2.1 q.2.2], n + 1⟩) := by
      simp [p2_create, hnone]
    have hnotin : q.1 ∉ rest.map (·.1) := by
      have := hnd
      rw [List.map_cons, List.nodup_cons] at this
      exact this.1
    have hnd2 : (rest.map (·.1)).Nodup := by
      have := hnd
      rw [List.map_cons, List.nodup_cons] at this
      exact this.2
    have hfr2 : ∀ r ∈ rest, ∀ e ∈ evs ++ [newEvent q.1 q.2.1 q.2.2], e.id ≠ r.1 := by
      intro r hr e he
      rcases List.mem_append.1 he with he | he
      · exact hfr r (by simp [hr]) e he
      · have heq : e = newEvent q.1 q.2.1 q.2.2 := by simpa using he
        subst heq
        intro hid
        exact hnotin (by
          simp only [newEvent] at hid
          rw [hid]
          exact List.mem_map.2 ⟨r, hr, rfl⟩)
    rw [p2_runCreates_cons, hcr]
    rw [p2_runCreates_spec rest (evs ++ [newEvent q.1 q.2.1 q.2.2]) (n + 1) hfr2 hnd2]
    simp [List.append_assoc]
    omega

theorem p1_runCreates_spec :
    ∀ (reqs : List (Nat × Nat × Nat)) (evs : List Event),
      (∀ r ∈ reqs, ∀ e ∈ evs, e.id ≠ r.1) → (reqs.map (·.1)).Nodup →
      p1_runCreates (some evs) reqs =
        some (evs ++ reqs.map (fun r => newEvent r.1 r.2.1 r.2.2))
  | [], evs, _, _ => by simp [p1_runCreates_nil]
  | q :: rest, evs, hfr, hnd => by
    have hnone : findEvent evs q.1 = none :=
      (findEvent_none_iff evs q.1).2 fun e he => hfr q (by simp) e he
    have hcr : p1_create (some evs) q.1 q.2.1 q.2.2 =
        (true, some (evs ++ [newEvent q.1 q.2.1 q.2.2])) := by
      simp [p1_create, hnone]
    have hnotin : q.1 ∉ rest.map (·.1) := by
      have := hnd
      rw [List.map_cons, List.nodup_cons] at this
      exact this.1
    have hnd2 : (rest.map (·.1)).Nodup := by
      have := hnd
      rw [List.map_cons, List.nodup_cons] at this
      exact this.2
    have hfr2 : ∀ r ∈ rest, ∀ e ∈ evs ++ [newEvent q.1 q.2.1 q.2.2], e.id ≠ r.1 := by
      intro r hr e he
      rcases List.mem_append.1 he with he | he
      · exact hfr r (by simp [hr]) e he
      · have heq : e = newEvent q.1 q.2.1 q.2.2 := by simpa using he
        subst heq
        intro hid
        exact hnotin (by
          simp only [newEvent] at hid
          rw [hid]
          exact List.mem_map.2 ⟨r, hr, rfl⟩)
    rw [p1_runCreates_cons, hcr]
    rw [p1_runCreates_spec rest (evs ++ [newEvent q.1 q.2.1 q.2.2]) hfr2 hnd2]
    simp [List.append_assoc]

/-- C7 counterexample: on the Proj2 server, LIST against a freshly
initialized (hence empty) registry writes error status 1 — `ems_list_events`
treats `event_list->head == NULL` as an error — instead of succeeding with
zero events as the claim states. -/
theorem c7_counterexample : p2_list (p2_init .null).2 = none := by decide

/-- C7 (amended): in the Proj1 variant, list_events on an initialized empty
registry succeeds reporting zero events; in the Proj2 variant it reports an
error status instead.  After N distinct successful creates, both variants
report exactly those N ids in creation order (Proj2 also reporting the
count N). -/
theorem c7_list_after_creates (reqs : List (Nat × Nat × Nat))
    (hnd : (reqs.map (·.1)).Nodup) :
    p1_list (p1_init none).2 = some [] ∧
    p2_list (p2_init .null).2 = none ∧
    p1_list (p1_runCreates (p1_init none).2 reqs) = some (reqs.map (·.1)) ∧
    (reqs ≠ [] →
      p2_list (p2_runCreates (p2_init .null).2 reqs) =
        some (reqs.length, reqs.map (·.1))) := by
  have hmapid : ∀ reqs2 : List (Nat × Nat × Nat),
      (reqs2.map (fun r => newEvent r.1 r.2.1 r.2.2)).map (·.id) = reqs2.map (·.1) := by
    intro reqs2
    rw [List.map_map]
    rfl
  refine ⟨rfl, rfl, ?_, ?_⟩
  · have hrun := p1_runCreates_spec reqs [] (fun r _ e he => by cases he) hnd
    show p1_list (p1_runCreates (some []) reqs) = _
    rw [hrun]
    simp only [p1_list, List.nil_append]
    rw [hmapid]
  · intro hne
    have hrun := p2_runCreates_spec reqs [] 0 (fun r _ e he => by cases he) hnd
    show p2_list (p2_runCreates (.valid ⟨[], 0⟩) reqs) = _
    rw [hrun]
    match reqs, hne with
    | q :: rest, _ =>
      simp only [p2_list, List.nil_append, List.map_cons]
      rw [hmapid rest]
      simp [newEvent]

/-- Witness for C7: two distinct creates. -/
theorem c7_list_after_creates_witness :
    (([((1 : Nat), (2 : Nat), (2 : Nat)), (5, 1, 1)] :
        List (Nat × Nat × Nat)).map (·.1)).Nodup ∧
    (p1_list (p1_init none).2 = some [] ∧
      p2_list (p2_init .null).2 = none ∧
      p1_list (p1_runCreates (p1_init none).2 [(1, 2, 2), (5, 1, 1)]) =
        some (([(1, 2, 2), (5, 1, 1)] : List (Nat × Nat × Nat)).map (·.1)) ∧
      (([(1, 2, 2), (5, 1, 1)] : List (Nat × Nat × Nat)) ≠ [] →
        p2_list (p2_runCreates (p2_init .null).2 [(1, 2, 2), (5, 1, 1)]) =
          some (([(1, 2, 2), (5, 1, 1)] : List (Nat × Nat × Nat)).length,
            ([(1, 2, 2), (5, 1, 1)] : List (Nat × Nat × Nat)).map (·.1)))) :=
  ⟨by decide, c7_list_after_creates [(1, 2, 2), (5, 1, 1)] (by decide)⟩

/-! ### The SHOW dump (claim C9) -/

theorem rowDump_eq (d : List Nat) :
    ∀ (cols off : Nat), off + cols ≤ d.length →
      (List.range cols).map (fun j => d.getD (off + j) 0) = (d.drop off).take cols := by
  intro cols
  induction cols with
  | zero => intro off _; simp
  | succ c ih =>
    intro off hb
    rw [List.range_succ, List.map_append, ih off (by omega), List.take_succ]
    have hidx : off + c < d.length := by omega
    have h1 : (d.drop off)[c]? = some d[off + c] := by
      rw [List.getElem?_drop]
      exact List.getElem?_eq_getElem hidx
    rw [h1]
    simp [List.getElem?_eq_getElem hidx]

theorem showCells_eq_data (ev : Event) (hwf : wfData ev) : showCells ev = ev.data := by
  have hidx : ∀ i j : Nat, seatIndex ev (i + 1, j + 1) = i * ev.cols + j := by
    intro i j
    simp [seatIndex]
  unfold showCells
  simp only [hidx]
  have main : ∀ R : Nat, R * ev.cols ≤ ev.data.length →
      ((List.range R).map fun i =>
        (List.range ev.cols).map fun j => ev.data.getD (i * ev.cols + j) 0).flatten =
        ev.data.take (R * ev.cols) := by
    intro R
    induction R with
    | zero => intro _; simp
    | succ r ih =>
      intro hb
      have hstep : (r + 1) * ev.cols = r * ev.cols + ev.cols := Nat.succ_mul r ev.cols
      have h1 : r * ev.cols ≤ ev.data.length := by omega
      rw [List.range_succ, List.map_append, List.flatten_append, ih h1]
      simp only [List.map_cons, List.map_nil, List.flatten_cons, List.flatten_nil,
        List.append_nil]
      rw [rowDump_eq ev.data ev.cols (r * ev.cols) (by omega), hstep, List.take_add]
  rw [main ev.rows (le_of_eq hwf.symm), ← hwf, List.take_length]

/-- C9: for every shape with at least one seat, CREATE followed immediately
by SHOW on that event yields an all-zero grid of exactly that shape; and the
seat dump written by `ems_show` is exactly the row-major grid array, i.e.
cell (row, col) sits at dump index (row-1)*cols + (col-1), with 0 meaning
free. -/
theorem c9_create_show (reg : P2Reg) (i rows cols : Nat)
    (hfresh : findEvent reg.events i = none) (hsz : 1 ≤ rows * cols) :
    p2_show (p2_create (.valid reg) i rows cols).2 i =
      some (rows, cols, List.replicate (rows * cols) 0) ∧
    (∀ ev : Event, wfData ev → showCells ev = ev.data) ∧
    List.replicate (rows * cols) 0 ≠ [] := by
  have hcr : p2_create (.valid reg) i rows cols =
      (true, .valid ⟨reg.events ++ [newEvent i rows cols], reg.numEvents + 1⟩) := by
    simp [p2_create, hfresh]
  refine ⟨?_, (fun ev hwf => showCells_eq_data ev hwf), ?_⟩
  · rw [hcr]
    simp only [p2_show]
    rw [findEvent_append_new reg.events i rows cols hfresh]
    dsimp only
    have hwfnew : wfData (newEvent i rows cols) := by simp [wfData, newEvent]
    rw [showCells_eq_data (newEvent i rows cols) hwfnew]
    rfl
  · simp only [ne_eq, List.replicate_eq_nil_iff]
    omega

/-- Witness for C9: create event 3 as 2 by 2 in a registry that does not
contain id 3, then show it. -/
theorem c9_create_show_witness :
    findEvent [newEvent 1 1 1] 3 = none ∧ 1 ≤ 2 * 2 ∧
    (p2_show (p2_create (.valid ⟨[newEvent 1 1 1], 1⟩) 3 2 2).2 3 =
        some (2, 2, List.replicate (2 * 2) 0) ∧
      (∀ ev : Event, wfData ev → showCells ev = ev.data) ∧
      List.replicate (2 * 2) 0 ≠ []) :=
  ⟨by decide, by decide,
    c9_create_show ⟨[newEvent 1 1 1], 1⟩ 3 2 2 (by decide) (by decide)⟩

end EMS
